import Mathlib

/-!
Verification of the NBM latest-CSV locator (app.py).

The program is a single script: a configuration block, a URL builder,
an HTTP existence check with a HEAD-to-GET fallback, a newest-to-oldest
search over a bounded (date, hour, version) space, a download step, and
a small UI shell.  Everything below is a shallow embedding of that code:
pure helpers become Lean functions, the network becomes an explicit
oracle passed as an argument, exceptions become sum types, and the
Streamlit cache decorator is modelled as an explicit key-value-expiry
store as described by the specification.
-/

/-! ### Configuration (app.py lines 12-19) -/

def STATIONS : List String := ["KXMR", "KTTS", "X1K", "KCOF", "KMLB", "KTIX"]

def NBM_VERSIONS_TO_TRY : List String := ["NBM4.2", "NBM4.1", "NBM4.0"]

def DAYS_BACK : Nat := 3

def TIMEOUT : Nat := 20

/-- Embedding of Python list(range(23, -1, -1)): hours 23 down to 0. -/
def HOURS_DESC : List Nat := (List.range 24).reverse

def BASE : String := "https://apps.gsl.noaa.gov/nbmviewer/data/archive"

/-- The ttl argument of every st.cache_data decorator in the script. -/
def CACHE_TTL : Nat := 300

/-! ### Decimal formatting

Python renders a component written with format spec 0Nd as its decimal
digits, left-padded with zeros to width N.  zpad is that semantics. -/

def zpad (w : Nat) (n : Nat) : String :=
  let s := toString n
  String.mk (List.replicate (w - s.length) '0') ++ s

/-! ### build_url (app.py lines 25-26) -/

def build_url (y : Nat) (m : Nat) (d : Nat) (hh : Nat) (nbm_version : String)
    (station : String) : String :=
  BASE ++ "/" ++ zpad 4 y ++ "/" ++ zpad 2 m ++ "/" ++ zpad 2 d ++ "/" ++
    nbm_version ++ "/" ++ zpad 2 hh ++ "/" ++ station ++ ".csv"

/-! ### Calendar arithmetic

datetime.date stores a proleptic Gregorian ordinal; subtracting a
timedelta of k days subtracts k from the ordinal, and the year, month
and day fields are recovered with CPython's _ord2ymd.  We embed a date
as its ordinal and translate _ord2ymd verbatim. -/

def DAYS_IN_MONTH : List Nat := [31, 28, 31, 30, 31, 30, 31, 31, 30, 31, 30, 31]

def DAYS_BEFORE_MONTH : List Nat := [0, 31, 59, 90, 120, 151, 181, 212, 243, 273, 304, 334]

/-- CPython datetime._ord2ymd: year, month, day of a Gregorian ordinal. -/
def ord2ymd (n0 : Nat) : Nat × Nat × Nat :=
  let n1 := n0 - 1
  let n400 := n1 / 146097
  let na := n1 % 146097
  let year0 := n400 * 400 + 1
  let n100 := na / 36524
  let nb := na % 36524
  let n4 := nb / 1461
  let nc := nb % 1461
  let nn1 := nc / 365
  let nd := nc % 365
  let year := year0 + n100 * 100 + n4 * 4 + nn1
  if nn1 = 4 ∨ n100 = 4 then (year - 1, 12, 31)
  else
    let leapyear : Bool := nn1 == 3 && (n4 != 24 || n100 == 3)
    let month := (nd + 50) / 32
    let preceding := DAYS_BEFORE_MONTH.getD (month - 1) 0 +
      (if 2 < month ∧ leapyear then 1 else 0)
    if nd < preceding then
      let month2 := month - 1
      let preceding2 := preceding -
        (DAYS_IN_MONTH.getD (month2 - 1) 0 + (if month2 = 2 ∧ leapyear then 1 else 0))
      (year, month2, nd - preceding2 + 1)
    else
      (year, month, nd - preceding + 1)

/-! ### The network oracle and url_exists (app.py lines 29-47)

A requests call either returns a response with a status code or raises;
we model each verb as a function from the URL to that outcome.  The
response body is irrelevant to url_exists, so the oracle only carries
status codes there. -/

inductive HttpOutcome where
  | status (code : Nat)
  | exn
deriving DecidableEq, Repr

structure Net where
  head : String → HttpOutcome
  get : String → HttpOutcome

/-- The except-branch of url_exists: a streaming GET whose status must
be exactly 200; an exception during the GET yields False. -/
def fallback_get (net : Net) (url : String) : Bool :=
  match net.get url with
  | HttpOutcome.status c => c == 200
  | HttpOutcome.exn => false

/-- url_exists: HEAD first; 200 means the URL exists; 403 or 405 raises
RuntimeError inside the try block, so it falls through, like a raising
HEAD, to the GET fallback; any other HEAD status returns False. -/
def url_exists (net : Net) (url : String) : Bool :=
  match net.head url with
  | HttpOutcome.status c =>
      if c == 200 then true
      else if c == 403 || c == 405 then fallback_get net url
      else false
  | HttpOutcome.exn => fallback_get net url

/-! ### download_csv_bytes (app.py lines 74-78) -/

structure Response where
  status_code : Nat
  content : List Nat
deriving DecidableEq, Repr

inductive DlOutcome where
  | resp (r : Response)
  | exn
deriving DecidableEq, Repr

structure DlNet where
  get : String → DlOutcome

inductive DlError where
  | transport
  | httpStatus (code : Nat)
deriving DecidableEq, Repr

/-- requests.Response.raise_for_status: raises HTTPError exactly for
client-error (4xx) and server-error (5xx) status codes. -/
def raise_for_status (r : Response) : Except DlError Unit :=
  if 400 ≤ r.status_code ∧ r.status_code < 600 then
    Except.error (DlError.httpStatus r.status_code)
  else Except.ok ()

def download_csv_bytes (net : DlNet) (url : String) : Except DlError (List Nat) :=
  match net.get url with
  | DlOutcome.exn => Except.error DlError.transport
  | DlOutcome.resp r =>
      match raise_for_status r with
      | Except.error e => Except.error e
      | Except.ok _ => Except.ok r.content

/-! ### find_latest_csv (app.py lines 50-71)

The dict returned by the Python function becomes a structure.  The
existence check is passed in as a boolean oracle on URLs (url_exists
applied to a Net), and today_utc as a Gregorian ordinal. -/

structure SearchResult where
  url : String
  year : Nat
  month : Nat
  day : Nat
  hour : Nat
  version : String
deriving DecidableEq, Repr

def find_latest_csv (ex : String → Bool) (today_utc : Nat) (station : String) :
    Option SearchResult :=
  (List.range DAYS_BACK).findSome? fun day_offset =>
    let day := today_utc - day_offset
    let y := (ord2ymd day).1
    let m := (ord2ymd day).2.1
    let d := (ord2ymd day).2.2
    HOURS_DESC.findSome? fun hh =>
      NBM_VERSIONS_TO_TRY.findSome? fun ver =>
        let url := build_url y m d hh ver station
        if ex url then
          some { url := url, year := y, month := m, day := d, hour := hh, version := ver }
        else none

/-! ### The search space as an explicit key list

A SearchKey is one (date, hour, version) candidate; dayOrd is the
calendar date as a Gregorian ordinal.  searchKeys lists the keys in
exactly the order the three nested loops of find_latest_csv visit
them: day offset 0 (today) to DAYS_BACK - 1, hours 23 down to 0,
versions in NBM_VERSIONS_TO_TRY order. -/

structure SearchKey where
  dayOrd : Nat
  hour : Nat
  version : String
deriving DecidableEq, Repr

def dayBlock (day : Nat) : List SearchKey :=
  HOURS_DESC.flatMap fun hh =>
    NBM_VERSIONS_TO_TRY.map fun ver => SearchKey.mk day hh ver

def searchKeys (today_utc : Nat) : List SearchKey :=
  (List.range DAYS_BACK).flatMap fun day_offset => dayBlock (today_utc - day_offset)

def keyURL (station : String) (k : SearchKey) : String :=
  build_url (ord2ymd k.dayOrd).1 (ord2ymd k.dayOrd).2.1 (ord2ymd k.dayOrd).2.2
    k.hour k.version station

def keyResult (station : String) (k : SearchKey) : SearchResult :=
  { url := keyURL station k
    year := (ord2ymd k.dayOrd).1
    month := (ord2ymd k.dayOrd).2.1
    day := (ord2ymd k.dayOrd).2.2
    hour := k.hour
    version := k.version }

/-- Position of a version tag in NBM_VERSIONS_TO_TRY. -/
def verIdx (v : String) : Nat := NBM_VERSIONS_TO_TRY.indexOf v

/-- The search priority order: key a is probed strictly before key b
when a has a more recent date, or the same date and a later hour, or
the same date and hour and an earlier-listed version. -/
def keyBefore (a b : SearchKey) : Prop :=
  b.dayOrd < a.dayOrd ∨
    (a.dayOrd = b.dayOrd ∧
      (b.hour < a.hour ∨ (a.hour = b.hour ∧ verIdx a.version < verIdx b.version)))

/-- The sequential scan, instrumented with the list of keys whose URL
it submits to the existence check: it stops at the first hit. -/
def scanProbes (ex : String → Bool) (station : String) :
    List SearchKey → Option SearchResult × List SearchKey
  | [] => (none, [])
  | k :: ks =>
      if ex (keyURL station k) then (some (keyResult station k), [k])
      else
        let r := scanProbes ex station ks
        (r.1, k :: r.2)

/-! ### The UI shell (app.py lines 98-127) -/

def notFoundMessage (station : String) : String :=
  "No CSV found for " ++ station ++ " in the last " ++ toString DAYS_BACK ++
    " day(s). Try increasing DAYS_BACK."

/-- Download file name (app.py line 121): station, underscore, the run
timestamp as a 4-digit year and 2-digit month, day and hour, another
underscore, the version tag, and the .csv suffix. -/
def filename (station : String) (r : SearchResult) : String :=
  station ++ "_" ++ zpad 4 r.year ++ zpad 2 r.month ++ zpad 2 r.day ++
    zpad 2 r.hour ++ "_" ++ r.version ++ ".csv"

inductive UIOutcome where
  | errorMsg (msg : String)
  | success (found : SearchResult) (csv_bytes : List Nat) (fname : String)
deriving DecidableEq, Repr

/-- The body of the button handler: search; on no result show the
explicit error message and stop; otherwise download (whose failure
propagates, hence the Except layer) and offer the file for download
under its generated name. -/
def ui_on_click (net : Net) (dlnet : DlNet) (today_utc : Nat) (station : String) :
    Except DlError UIOutcome :=
  match find_latest_csv (url_exists net) today_utc station with
  | none => Except.ok (UIOutcome.errorMsg (notFoundMessage station))
  | some found =>
      match download_csv_bytes dlnet found.url with
      | Except.error e => Except.error e
      | Except.ok csv_bytes =>
          Except.ok (UIOutcome.success found csv_bytes (filename station found))

/-! ### The cache

Modelled from the spec: the st.cache_data decorator (library code, not
part of this repository) memoises a function per argument with a
time-to-live; the specification describes it as an explicit cache
store, key to value and expiry, checked and populated by the locator.
cachedCall reports in its third component how many underlying calls
(network requests) it performed: 0 on a fresh hit, 1 on a miss. -/

/-- Modelled from the spec: the lookup half of the cache store the
specification prescribes for the st.cache_data decorator (library
code, absent from this repository): an entry answers only while the
current time is below its expiry. -/
def cacheLookup {α : Type} (now : Nat) (c : List (String × α × Nat)) (k : String) :
    Option α :=
  match c.find? (fun e => e.1 == k) with
  | some e => if now < e.2.2 then some e.2.1 else none
  | none => none

/-- Modelled from the spec: one memoised call through the cache store
standing for the st.cache_data decorator (library code, absent from
this repository); a fresh hit answers from the cache, a miss calls the
function, stores the value with expiry now plus ttl, and counts one
underlying network call. -/
def cachedCall {α : Type} (ttl : Nat) (f : String → α) (now : Nat)
    (c : List (String × α × Nat)) (k : String) : α × List (String × α × Nat) × Nat :=
  match cacheLookup now c k with
  | some v => (v, c, 0)
  | none => (f k, (k, f k, now + ttl) :: c, 1)

/-- Modelled from the spec: the search loop with url_exists routed
through the cache store standing for its st.cache_data decorator,
counting underlying network requests. -/
def searchCachedList (net : Net) (now : Nat) (station : String) :
    List SearchKey → List (String × Bool × Nat) →
      Option SearchResult × List (String × Bool × Nat) × Nat
  | [], c => (none, c, 0)
  | k :: ks, c =>
      let step := cachedCall CACHE_TTL (url_exists net) now c (keyURL station k)
      if step.1 then (some (keyResult station k), step.2.1, step.2.2)
      else
        let rest := searchCachedList net now station ks step.2.1
        (rest.1, rest.2.1, step.2.2 + rest.2.2)

/-- Every entry of the cache holds the oracle value of its key and
expires exactly one time-to-live after time t. -/
def FreshAt (net : Net) (t : Nat) (c : List (String × Bool × Nat)) : Prop :=
  ∀ e ∈ c, e.2.1 = url_exists net e.1 ∧ e.2.2 = t + CACHE_TTL

/-! ### Concrete network oracles used to exercise the theorems -/

/-- A server answering 404 to every request. -/
def net404 : Net :=
  { head := fun _ => HttpOutcome.status 404, get := fun _ => HttpOutcome.status 404 }

/-- A server answering 200 to every request. -/
def net200 : Net :=
  { head := fun _ => HttpOutcome.status 200, get := fun _ => HttpOutcome.status 200 }

/-- A server whose HEAD answers 201 and whose GET answers 204. -/
def net_c9 : Net :=
  { head := fun _ => HttpOutcome.status 201, get := fun _ => HttpOutcome.status 204 }

/-- A download server answering 200 with a three-byte body. -/
def dlnetOk : DlNet := { get := fun _ => DlOutcome.resp { status_code := 200, content := [1, 2, 3] } }

/-- A download server answering 500 with an empty body. -/
def dlnet500 : DlNet := { get := fun _ => DlOutcome.resp { status_code := 500, content := [] } }

/-- A download server answering 304 Not Modified with a one-byte body. -/
def dlnet304 : DlNet := { get := fun _ => DlOutcome.resp { status_code := 304, content := [7] } }

/-! ### General lemmas about findSome?, find? and the scan -/

theorem map_findSome? {α β γ : Type} (g : β → γ) (f : α → Option β) (l : List α) :
    (l.findSome? f).map g = l.findSome? fun a => (f a).map g := by
  induction l with
  | nil => rfl
  | cons a l ih =>
      rw [List.findSome?_cons, List.findSome?_cons]
      cases h : f a <;> simp [h, ih]

theorem map_find?_eq_findSome? {α β : Type} (q : α → Bool) (g : α → β) (l : List α) :
    (l.find? q).map g = l.findSome? fun a => if q a then some (g a) else none := by
  induction l with
  | nil => rfl
  | cons a l ih =>
      rw [List.findSome?_cons]
      by_cases h : q a <;> simp [List.find?_cons, h, ih]

theorem scanProbes_fst (ex : String → Bool) (station : String) (l : List SearchKey) :
    (scanProbes ex station l).1 =
      (l.find? fun k => ex (keyURL station k)).map (keyResult station) := by
  induction l with
  | nil => rfl
  | cons k ks ih =>
      by_cases h : ex (keyURL station k) <;>
        simp [scanProbes, List.find?_cons, h, ih]

theorem scanProbes_snd (ex : String → Bool) (station : String) (l : List SearchKey) :
    (scanProbes ex station l).2 =
      l.takeWhile (fun k => !(ex (keyURL station k))) ++
        (l.find? fun k => ex (keyURL station k)).toList := by
  induction l with
  | nil => rfl
  | cons k ks ih =>
      by_cases h : ex (keyURL station k) <;>
        simp [scanProbes, List.find?_cons, List.takeWhile_cons, h, ih]

theorem scanProbes_sublist (ex : String → Bool) (station : String) (l : List SearchKey) :
    (scanProbes ex station l).2.Sublist l := by
  induction l with
  | nil => simp [scanProbes]
  | cons k ks ih =>
      by_cases h : ex (keyURL station k)
      · simp [scanProbes, h]
      · simpa [scanProbes, h] using ih

theorem scanProbes_all_false {ex : String → Bool} (station : String)
    (l : List SearchKey) (h : ∀ u, ex u = false) :
    scanProbes ex station l = (none, l) := by
  induction l with
  | nil => rfl
  | cons k ks ih => simp [scanProbes, h, ih]


/-! ### The loop nest as a first-hit scan over searchKeys -/

theorem find_latest_csv_eq_find? (ex : String → Bool) (today_utc : Nat) (station : String) :
    find_latest_csv ex today_utc station =
      ((searchKeys today_utc).find? fun k => ex (keyURL station k)).map
        (keyResult station) := by
  unfold find_latest_csv searchKeys dayBlock
  simp only [List.find?_flatMap, map_findSome?, List.find?_map, Option.map_map,
    map_find?_eq_findSome?, apply_ite (Option.map (keyResult station)), Option.map_some,
    Option.map_none]
  rfl

theorem find_latest_csv_eq_scan (ex : String → Bool) (today_utc : Nat) (station : String) :
    find_latest_csv ex today_utc station = (scanProbes ex station (searchKeys today_utc)).1 := by
  rw [find_latest_csv_eq_find?, scanProbes_fst]

/-! ### The priority order on search keys -/

theorem hoursDesc_pairwise : HOURS_DESC.Pairwise (fun a b => b < a) := by
  decide

theorem mem_hoursDesc {hh : Nat} : hh ∈ HOURS_DESC ↔ hh < 24 := by
  unfold HOURS_DESC
  rw [List.mem_reverse, List.mem_range]

theorem mem_dayBlock {k : SearchKey} {day : Nat} :
    k ∈ dayBlock day ↔ k.dayOrd = day ∧ k.hour ∈ HOURS_DESC ∧ k.version ∈ NBM_VERSIONS_TO_TRY := by
  unfold dayBlock
  simp only [List.mem_flatMap, List.mem_map]
  constructor
  · rintro ⟨hh, hmem, ver, hver, rfl⟩
    exact ⟨rfl, hmem, hver⟩
  · rintro ⟨hd, hhh, hv⟩
    exact ⟨k.hour, hhh, k.version, hv, by cases k with | mk a b c => cases hd; rfl⟩

theorem dayTriple_pairwise (day hh : Nat) :
    (NBM_VERSIONS_TO_TRY.map fun ver => SearchKey.mk day hh ver).Pairwise keyBefore := by
  have hmap : (NBM_VERSIONS_TO_TRY.map fun ver => SearchKey.mk day hh ver) =
      [SearchKey.mk day hh "NBM4.2", SearchKey.mk day hh "NBM4.1",
        SearchKey.mk day hh "NBM4.0"] := rfl
  rw [hmap]
  refine List.Pairwise.cons ?_ (List.Pairwise.cons ?_ (List.pairwise_singleton _ _)) <;>
    intro b hb <;> simp only [List.mem_cons, List.not_mem_nil, or_false] at hb
  · rcases hb with rfl | rfl
    · exact Or.inr ⟨rfl, Or.inr ⟨rfl, (by decide : verIdx "NBM4.2" < verIdx "NBM4.1")⟩⟩
    · exact Or.inr ⟨rfl, Or.inr ⟨rfl, (by decide : verIdx "NBM4.2" < verIdx "NBM4.0")⟩⟩
  · rcases hb with rfl
    exact Or.inr ⟨rfl, Or.inr ⟨rfl, (by decide : verIdx "NBM4.1" < verIdx "NBM4.0")⟩⟩

theorem dayBlock_pairwise (day : Nat) : (dayBlock day).Pairwise keyBefore := by
  unfold dayBlock
  rw [List.pairwise_flatMap]
  constructor
  · intro hh _
    exact dayTriple_pairwise day hh
  · refine hoursDesc_pairwise.imp ?_
    intro h1 h2 hlt x hx y hy
    simp only [List.mem_map] at hx hy
    obtain ⟨v1, _, rfl⟩ := hx
    obtain ⟨v2, _, rfl⟩ := hy
    exact Or.inr ⟨rfl, Or.inl hlt⟩

theorem searchKeys_pairwise (today_utc : Nat) (h2 : 2 ≤ today_utc) :
    (searchKeys today_utc).Pairwise keyBefore := by
  unfold searchKeys
  rw [List.pairwise_flatMap]
  refine ⟨fun off _ => dayBlock_pairwise _, ?_⟩
  refine (List.pairwise_lt_range DAYS_BACK).imp_of_mem ?_
  intro o1 o2 h1m h2m hlt x hx y hy
  have hx1 : x.dayOrd = today_utc - o1 := (mem_dayBlock.mp hx).1
  have hy1 : y.dayOrd = today_utc - o2 := (mem_dayBlock.mp hy).1
  have ho2 : o2 < DAYS_BACK := List.mem_range.mp h2m
  have hdb : DAYS_BACK = 3 := rfl
  left
  rw [hx1, hy1]
  omega

theorem keyBefore_ne {a b : SearchKey} (h : keyBefore a b) : a ≠ b := by
  intro heq
  subst heq
  rcases h with h | ⟨_, h | ⟨_, h⟩⟩ <;> exact absurd h (lt_irrefl _)

theorem searchKeys_nodup (today_utc : Nat) (h2 : 2 ≤ today_utc) :
    (searchKeys today_utc).Nodup :=
  (searchKeys_pairwise today_utc h2).imp fun h => keyBefore_ne h

theorem mem_searchKeys_space {k : SearchKey} {today_utc : Nat}
    (h : k ∈ searchKeys today_utc) :
    today_utc - (DAYS_BACK - 1) ≤ k.dayOrd ∧ k.dayOrd ≤ today_utc ∧
      k.hour ≤ 23 ∧ k.version ∈ NBM_VERSIONS_TO_TRY := by
  unfold searchKeys at h
  rw [List.mem_flatMap] at h
  obtain ⟨off, hoff, hk⟩ := h
  obtain ⟨hd, hhh, hv⟩ := mem_dayBlock.mp hk
  have h24 : k.hour < 24 := mem_hoursDesc.mp hhh
  have ho : off < DAYS_BACK := List.mem_range.mp hoff
  have hdb : DAYS_BACK = 3 := rfl
  exact ⟨by omega, by omega, by omega, hv⟩

/-! ### First-hit lemmas for find? -/

theorem find?_pairwise_first {α : Type} {R : α → α → Prop} {p : α → Bool} :
    ∀ {l : List α}, l.Pairwise R → ∀ {k}, k ∈ l → p k = true →
      ∃ k0, l.find? p = some k0 ∧ (k0 = k ∨ R k0 k) := by
  intro l
  induction l with
  | nil => intro _ k hk; exact absurd hk (List.not_mem_nil k)
  | cons a l ih =>
      intro hp k hk hpk
      obtain ⟨ha, hl⟩ := List.pairwise_cons.mp hp
      by_cases h : p a
      · refine ⟨a, by simp [List.find?_cons, h], ?_⟩
        rcases List.mem_cons.mp hk with rfl | hk2
        · exact Or.inl rfl
        · exact Or.inr (ha k hk2)
      · have hkl : k ∈ l := by
          rcases List.mem_cons.mp hk with rfl | hk2
          · exact absurd hpk (by simp [h])
          · exact hk2
        obtain ⟨k0, hf, hr⟩ := ih hl hkl hpk
        exact ⟨k0, by simp [List.find?_cons, h, hf], hr⟩

theorem find?_eq_some_of_unique {α : Type} {p : α → Bool} {t : α} :
    ∀ {l : List α}, t ∈ l → (∀ k ∈ l, k ≠ t → p k = false) → p t = true →
      l.find? p = some t := by
  intro l
  induction l with
  | nil => intro hk; exact absurd hk (List.not_mem_nil t)
  | cons a l ih =>
      intro ht hother hpt
      by_cases hat : a = t
      · subst hat
        simp [List.find?_cons, hpt]
      · have hpa : p a = false := hother a (List.mem_cons_self a l) hat
        have htl : t ∈ l := by
          rcases List.mem_cons.mp ht with heq | h2
          · exact absurd heq.symm hat
          · exact h2
        have := ih htl (fun k hk hne => hother k (List.mem_cons_of_mem a hk) hne) hpt
        simp [List.find?_cons, hpa, this]

/-! ### Cache behaviour -/

theorem cachedCall_fresh (net : Net) (t : Nat) (c : List (String × Bool × Nat))
    (url : String) (hc : FreshAt net t c) :
    (cachedCall CACHE_TTL (url_exists net) t c url).1 = url_exists net url
    ∧ FreshAt net t (cachedCall CACHE_TTL (url_exists net) t c url).2.1
    ∧ (∀ e ∈ c, e ∈ (cachedCall CACHE_TTL (url_exists net) t c url).2.1)
    ∧ (∃ e ∈ (cachedCall CACHE_TTL (url_exists net) t c url).2.1, e.1 = url) := by
  unfold cachedCall cacheLookup
  cases hfind : c.find? (fun e => e.1 == url) with
  | none =>
      refine ⟨rfl, ?_, ?_, ?_⟩
      · intro e he
        rcases List.mem_cons.mp he with rfl | he2
        · exact ⟨rfl, rfl⟩
        · exact hc e he2
      · intro e he
        exact List.mem_cons_of_mem _ he
      · exact ⟨(url, url_exists net url, t + CACHE_TTL), List.mem_cons_self _ _, rfl⟩
  | some e =>
      have he_mem : e ∈ c := List.mem_of_find?_eq_some hfind
      have hkey : e.1 = url := by
        have := List.find?_some hfind
        simpa using this
      obtain ⟨hv, hexp⟩ := hc e he_mem
      have hlt : t < e.2.2 := by
        rw [hexp]
        have h300 : CACHE_TTL = 300 := rfl
        omega
      simp only [hlt, if_true]
      exact ⟨by rw [hv, hkey], hc, fun e2 he2 => he2, ⟨e, he_mem, hkey⟩⟩

theorem scanProbes_cons_pos {ex : String → Bool} (station : String) {k : SearchKey}
    (ks : List SearchKey) (hex : ex (keyURL station k) = true) :
    scanProbes ex station (k :: ks) = (some (keyResult station k), [k]) := by
  simp [scanProbes, hex]

theorem scanProbes_cons_neg {ex : String → Bool} (station : String) {k : SearchKey}
    (ks : List SearchKey) (hex : ex (keyURL station k) = false) :
    scanProbes ex station (k :: ks) =
      ((scanProbes ex station ks).1, k :: (scanProbes ex station ks).2) := by
  simp [scanProbes, hex]

theorem searchCachedList_cons_pos (net : Net) (now : Nat) (station : String)
    {k : SearchKey} (ks : List SearchKey) (c : List (String × Bool × Nat))
    (hstep : (cachedCall CACHE_TTL (url_exists net) now c (keyURL station k)).1 = true) :
    searchCachedList net now station (k :: ks) c =
      (some (keyResult station k),
        (cachedCall CACHE_TTL (url_exists net) now c (keyURL station k)).2.1,
        (cachedCall CACHE_TTL (url_exists net) now c (keyURL station k)).2.2) := by
  simp [searchCachedList, hstep]

theorem searchCachedList_cons_neg (net : Net) (now : Nat) (station : String)
    {k : SearchKey} (ks : List SearchKey) (c : List (String × Bool × Nat))
    (hstep : (cachedCall CACHE_TTL (url_exists net) now c (keyURL station k)).1 = false) :
    searchCachedList net now station (k :: ks) c =
      ((searchCachedList net now station ks
          (cachedCall CACHE_TTL (url_exists net) now c (keyURL station k)).2.1).1,
        (searchCachedList net now station ks
          (cachedCall CACHE_TTL (url_exists net) now c (keyURL station k)).2.1).2.1,
        (cachedCall CACHE_TTL (url_exists net) now c (keyURL station k)).2.2 +
          (searchCachedList net now station ks
            (cachedCall CACHE_TTL (url_exists net) now c (keyURL station k)).2.1).2.2) := by
  simp [searchCachedList, hstep]

theorem searchCached_fresh (net : Net) (t : Nat) (station : String) :
    ∀ (l : List SearchKey) (c : List (String × Bool × Nat)), FreshAt net t c →
      (searchCachedList net t station l c).1 = (scanProbes (url_exists net) station l).1
      ∧ FreshAt net t (searchCachedList net t station l c).2.1
      ∧ (∀ e ∈ c, e ∈ (searchCachedList net t station l c).2.1)
      ∧ (∀ k ∈ (scanProbes (url_exists net) station l).2,
          ∃ e ∈ (searchCachedList net t station l c).2.1, e.1 = keyURL station k) := by
  intro l
  induction l with
  | nil =>
      intro c hc
      exact ⟨rfl, hc, fun e he => he, by intro k hk; cases hk⟩
  | cons k ks ih =>
      intro c hc
      obtain ⟨h1, h2, h3, h4⟩ := cachedCall_fresh net t c (keyURL station k) hc
      by_cases hex : url_exists net (keyURL station k)
      · have hstep : (cachedCall CACHE_TTL (url_exists net) t c (keyURL station k)).1 = true := by
          rw [h1, hex]
        rw [searchCachedList_cons_pos net t station ks c hstep,
          scanProbes_cons_pos station ks hex]
        refine ⟨rfl, h2, h3, ?_⟩
        intro k2 hk2
        rcases List.mem_cons.mp hk2 with rfl | h0
        · exact h4
        · cases h0
      · have hexf : url_exists net (keyURL station k) = false := by simpa using hex
        have hstep : (cachedCall CACHE_TTL (url_exists net) t c (keyURL station k)).1 = false := by
          rw [h1, hexf]
        rw [searchCachedList_cons_neg net t station ks c hstep,
          scanProbes_cons_neg station ks hexf]
        obtain ⟨i1, i2, i3, i4⟩ :=
          ih (cachedCall CACHE_TTL (url_exists net) t c (keyURL station k)).2.1 h2
        refine ⟨i1, i2, ?_, ?_⟩
        · intro e he
          exact i3 e (h3 e he)
        · intro k2 hk2
          rcases List.mem_cons.mp hk2 with rfl | h0
          · obtain ⟨e, he, hekey⟩ := h4
            exact ⟨e, i3 e he, hekey⟩
          · exact i4 k2 h0

theorem searchCached_second (net : Net) (t0 t1 : Nat) (station : String)
    (hwin : t1 < t0 + CACHE_TTL) :
    ∀ (l : List SearchKey) (c : List (String × Bool × Nat)), FreshAt net t0 c →
      (∀ k ∈ (scanProbes (url_exists net) station l).2, ∃ e ∈ c, e.1 = keyURL station k) →
      searchCachedList net t1 station l c = ((scanProbes (url_exists net) station l).1, c, 0) := by
  intro l
  induction l with
  | nil => intro c _ _; rfl
  | cons k ks ih =>
      intro c hc hpres
      have hkmem : k ∈ (scanProbes (url_exists net) station (k :: ks)).2 := by
        by_cases hex : url_exists net (keyURL station k) <;>
          simp [scanProbes, hex]
      obtain ⟨e, hemem, hekey⟩ := hpres k hkmem
      have hsome : (c.find? fun e2 => e2.1 == keyURL station k).isSome := by
        rw [List.find?_isSome]
        exact ⟨e, hemem, by simp [hekey]⟩
      obtain ⟨e2, hfind⟩ := Option.isSome_iff_exists.mp hsome
      have he2mem : e2 ∈ c := List.mem_of_find?_eq_some hfind
      have he2key : e2.1 = keyURL station k := by
        have := List.find?_some hfind
        simpa using this
      obtain ⟨hv2, hexp2⟩ := hc e2 he2mem
      have hcall : cachedCall CACHE_TTL (url_exists net) t1 c (keyURL station k) =
          (url_exists net (keyURL station k), c, 0) := by
        unfold cachedCall cacheLookup
        rw [hfind]
        have hlt : t1 < e2.2.2 := by rw [hexp2]; omega
        simp only [hlt, if_true]
        rw [hv2, he2key]
      by_cases hex : url_exists net (keyURL station k)
      · have hstep : (cachedCall CACHE_TTL (url_exists net) t1 c (keyURL station k)).1 = true := by
          rw [hcall]
          exact hex
        rw [searchCachedList_cons_pos net t1 station ks c hstep,
          scanProbes_cons_pos station ks hex, hcall]
      · have hexf : url_exists net (keyURL station k) = false := by simpa using hex
        have hstep : (cachedCall CACHE_TTL (url_exists net) t1 c (keyURL station k)).1 = false := by
          rw [hcall]
          exact hexf
        have hrest : ∀ k2 ∈ (scanProbes (url_exists net) station ks).2,
            ∃ e3 ∈ c, e3.1 = keyURL station k2 := by
          intro k2 hk2
          refine hpres k2 ?_
          rw [scanProbes_cons_neg station ks hexf]
          exact List.mem_cons_of_mem k hk2
        rw [searchCachedList_cons_neg net t1 station ks c hstep,
          scanProbes_cons_neg station ks hexf, hcall, ih c hc hrest]
        rfl

/-! ### Claim theorems -/

/-- Claim C2: url_exists returns true exactly when the HEAD request
yields status 200, or the HEAD outcome is 403, 405 or an exception and
the fallback GET yields status 200; every other combination of
outcomes, including an exception during the fallback GET, yields
false. In particular HEAD 405 with GET 200 confirms existence. -/
theorem claim_C2 (net : Net) (url : String) :
    url_exists net url = true ↔
      (net.head url = HttpOutcome.status 200 ∨
        ((net.head url = HttpOutcome.status 403 ∨ net.head url = HttpOutcome.status 405 ∨
            net.head url = HttpOutcome.exn) ∧ net.get url = HttpOutcome.status 200)) := by
  unfold url_exists fallback_get
  rcases hh : net.head url with c | _ <;> rcases hg : net.get url with cg | _ <;>
    simp only [hh, hg] <;> (try split_ifs) <;> simp_all

/-- Claim C9 (implicit): the existence check accepts only the exact
status 200; if neither the HEAD nor the GET outcome is status 200,
url_exists is false, so success statuses such as 201 or 204 are
treated as non-existence. -/
theorem claim_C9 (net : Net) (url : String)
    (hhead : ∀ c, net.head url = HttpOutcome.status c → c ≠ 200)
    (hget : ∀ c, net.get url = HttpOutcome.status c → c ≠ 200) :
    url_exists net url = false := by
  unfold url_exists fallback_get
  rcases hh : net.head url with c | _
  · have hc := hhead c hh
    rcases hg : net.get url with cg | _
    · have hcg := hget cg hg
      dsimp only
      split_ifs <;> simp_all
    · dsimp only
      split_ifs <;> simp_all
  · rcases hg : net.get url with cg | _
    · have hcg := hget cg hg
      dsimp only
      simp_all
    · rfl

/-- Witness for claim C9 at a concrete server: HEAD 201, GET 204. -/
theorem claim_C9_witness : url_exists net_c9 "u" = false := by
  refine claim_C9 net_c9 "u" ?_ ?_
  · intro c h
    have h2 : HttpOutcome.status 201 = HttpOutcome.status c := h
    injection h2 with h3
    omega
  · intro c h
    have h2 : HttpOutcome.status 204 = HttpOutcome.status c := h
    injection h2 with h3
    omega

/-- Claim C10 (implicit): any result returned by find_latest_csv has a
url field equal to build_url applied to its own year, month, day, hour
and version fields and the searched station. -/
theorem claim_C10 (ex : String → Bool) (today_utc : Nat) (station : String)
    (r : SearchResult) (h : find_latest_csv ex today_utc station = some r) :
    r.url = build_url r.year r.month r.day r.hour r.version station := by
  rw [find_latest_csv_eq_find?] at h
  obtain ⟨k, hfind, hres⟩ := Option.map_eq_some'.mp h
  subst hres
  rfl

/-- Witness for claim C10 at a concrete search where every URL exists. -/
theorem claim_C10_witness :
    ({ url := "https://apps.gsl.noaa.gov/nbmviewer/data/archive/2026/10/12/NBM4.2/23/KXMR.csv",
        year := 2026, month := 10, day := 12, hour := 23,
        version := "NBM4.2" } : SearchResult).url =
      build_url 2026 10 12 23 "NBM4.2" "KXMR" :=
  claim_C10 (fun _ => true) 739901 "KXMR" _ (by rfl)

/-- Length of a zero-padded decimal rendering: exactly the width
whenever the value fits in that many digits. -/
theorem zpad_length (w n : Nat) (hw : 0 < w) (h : n < 10 ^ w) : (zpad w n).length = w := by
  unfold zpad
  rw [String.length_append]
  have hmk : (String.mk (List.replicate (w - (toString n).length) '0')).length =
      w - (toString n).length := by
    simp
  have hr : (toString n).length ≤ w := Nat.repr_length n w hw h
  rw [hmk]
  omega

/-- Claim C4: build_url renders the URL template base, 4-digit year,
2-digit month, day, version tag, 2-digit hour, station and the .csv
suffix, and the fixed configuration has 6 stations, the 3 version
candidates newest-named first, a 3-day lookback, a 20-second timeout
and a 300-second cache time-to-live. -/
theorem claim_C4 :
    (∀ (y m d hh : Nat) (v s : String),
        build_url y m d hh v s =
          BASE ++ "/" ++ zpad 4 y ++ "/" ++ zpad 2 m ++ "/" ++ zpad 2 d ++ "/" ++ v ++ "/" ++
            zpad 2 hh ++ "/" ++ s ++ ".csv")
    ∧ (∀ y, y < 10000 → (zpad 4 y).length = 4)
    ∧ (∀ n, n < 100 → (zpad 2 n).length = 2)
    ∧ STATIONS.length = 6
    ∧ NBM_VERSIONS_TO_TRY = ["NBM4.2", "NBM4.1", "NBM4.0"]
    ∧ DAYS_BACK = 3 ∧ TIMEOUT = 20 ∧ CACHE_TTL = 300 := by
  refine ⟨fun y m d hh v s => rfl, ?_, ?_, rfl, rfl, rfl, rfl, rfl⟩
  · intro y hy
    refine zpad_length 4 y (by norm_num) ?_
    have h4 : (10 : Nat) ^ 4 = 10000 := by norm_num
    omega
  · intro n hn
    refine zpad_length 2 n (by norm_num) ?_
    have h2 : (10 : Nat) ^ 2 = 100 := by norm_num
    omega

/-- Witness for claim C4: the year 2026 is rendered with 4 digits. -/
theorem claim_C4_witness : 2026 < 10000 ∧ (zpad 4 2026).length = 4 :=
  ⟨by norm_num, claim_C4.2.1 2026 (by norm_num)⟩

/-- Claim C1: the search visits the candidate keys in the priority
order newest date, then highest hour, then version list order (the
key list is strictly sorted by keyBefore); the returned result is the
first key of that enumeration whose URL the existence check confirms;
any other existing candidate is at or after the returned one in the
order; and the probed keys are exactly the failing prefix followed by
the hit, so nothing after the hit is probed. -/
theorem claim_C1 (ex : String → Bool) (today_utc : Nat) (station : String)
    (h2 : 2 ≤ today_utc) :
    (searchKeys today_utc).Pairwise keyBefore
    ∧ find_latest_csv ex today_utc station =
        ((searchKeys today_utc).find? fun k => ex (keyURL station k)).map (keyResult station)
    ∧ (∀ k ∈ searchKeys today_utc, ex (keyURL station k) = true →
        ∃ k0, ((searchKeys today_utc).find? fun k2 => ex (keyURL station k2)) = some k0 ∧
          (k0 = k ∨ keyBefore k0 k))
    ∧ (scanProbes ex station (searchKeys today_utc)).2 =
        (searchKeys today_utc).takeWhile (fun k => !(ex (keyURL station k))) ++
          ((searchKeys today_utc).find? fun k => ex (keyURL station k)).toList := by
  refine ⟨searchKeys_pairwise today_utc h2, find_latest_csv_eq_find? ex today_utc station,
    ?_, scanProbes_snd ex station (searchKeys today_utc)⟩
  intro k hk hex
  exact find?_pairwise_first (searchKeys_pairwise today_utc h2) hk hex

/-- Witness for claim C1 at a concrete date and an oracle on which
every existence check fails. -/
theorem claim_C1_witness :
    2 ≤ 739901
    ∧ ((searchKeys 739901).Pairwise keyBefore
      ∧ find_latest_csv (fun _ => false) 739901 "KXMR" =
          ((searchKeys 739901).find? fun k => (fun _ => false) (keyURL "KXMR" k)).map
            (keyResult "KXMR")
      ∧ (∀ k ∈ searchKeys 739901, (fun _ => false) (keyURL "KXMR" k) = true →
          ∃ k0, ((searchKeys 739901).find? fun k2 => (fun _ => false) (keyURL "KXMR" k2)) =
              some k0 ∧ (k0 = k ∨ keyBefore k0 k))
      ∧ (scanProbes (fun _ => false) "KXMR" (searchKeys 739901)).2 =
          (searchKeys 739901).takeWhile (fun k => !((fun _ => false) (keyURL "KXMR" k))) ++
            ((searchKeys 739901).find? fun k => (fun _ => false) (keyURL "KXMR" k)).toList) :=
  ⟨by norm_num, claim_C1 (fun _ => false) 739901 "KXMR" (by norm_num)⟩

/-- Claim C3: when no URL exists the search returns none, having
probed every one of the 3 by 24 by 3, that is 216, candidate keys, and
the button handler surfaces this as the explicit not-found message, an
ordinary outcome rather than an error. -/
theorem claim_C3 (net : Net) (dlnet : DlNet) (today_utc : Nat) (station : String)
    (h : ∀ u, url_exists net u = false) :
    find_latest_csv (url_exists net) today_utc station = none
    ∧ (scanProbes (url_exists net) station (searchKeys today_utc)).2.length =
        DAYS_BACK * 24 * NBM_VERSIONS_TO_TRY.length
    ∧ DAYS_BACK * 24 * NBM_VERSIONS_TO_TRY.length = 216
    ∧ ui_on_click net dlnet today_utc station =
        Except.ok (UIOutcome.errorMsg (notFoundMessage station)) := by
  have hscan := scanProbes_all_false station (searchKeys today_utc) h
  have hnone : find_latest_csv (url_exists net) today_utc station = none := by
    rw [find_latest_csv_eq_scan, hscan]
  refine ⟨hnone, ?_, by rfl, ?_⟩
  · rw [hscan]
    rfl
  · unfold ui_on_click
    rw [hnone]

/-- Witness for claim C3 at a concrete date against a server that
answers 404 everywhere. -/
theorem claim_C3_witness :
    (∀ u, url_exists net404 u = false)
    ∧ (find_latest_csv (url_exists net404) 739901 "KXMR" = none
      ∧ (scanProbes (url_exists net404) "KXMR" (searchKeys 739901)).2.length =
          DAYS_BACK * 24 * NBM_VERSIONS_TO_TRY.length
      ∧ DAYS_BACK * 24 * NBM_VERSIONS_TO_TRY.length = 216
      ∧ ui_on_click net404 dlnetOk 739901 "KXMR" =
          Except.ok (UIOutcome.errorMsg (notFoundMessage "KXMR"))) :=
  ⟨fun _ => rfl, claim_C3 net404 dlnetOk 739901 "KXMR" (fun _ => rfl)⟩

/-- Claim C5: within one search no key is probed twice (the probe list
has no duplicates), and every probed key lies inside the bounded
space: its date within the lookback window ending today, its hour at
most 23, and its version one of the fixed candidates. -/
theorem claim_C5 (ex : String → Bool) (today_utc : Nat) (station : String)
    (h2 : 2 ≤ today_utc) :
    (scanProbes ex station (searchKeys today_utc)).2.Nodup
    ∧ ∀ k ∈ (scanProbes ex station (searchKeys today_utc)).2,
        today_utc - (DAYS_BACK - 1) ≤ k.dayOrd ∧ k.dayOrd ≤ today_utc ∧
          k.hour ≤ 23 ∧ k.version ∈ NBM_VERSIONS_TO_TRY := by
  have hsub := scanProbes_sublist ex station (searchKeys today_utc)
  refine ⟨List.Nodup.sublist hsub (searchKeys_nodup today_utc h2), ?_⟩
  intro k hk
  exact mem_searchKeys_space (hsub.subset hk)

/-- Witness for claim C5 at a concrete date and an oracle on which
every existence check succeeds. -/
theorem claim_C5_witness :
    2 ≤ 739901
    ∧ ((scanProbes (fun _ => true) "KXMR" (searchKeys 739901)).2.Nodup
      ∧ ∀ k ∈ (scanProbes (fun _ => true) "KXMR" (searchKeys 739901)).2,
          739901 - (DAYS_BACK - 1) ≤ k.dayOrd ∧ k.dayOrd ≤ 739901 ∧
            k.hour ≤ 23 ∧ k.version ∈ NBM_VERSIONS_TO_TRY) :=
  ⟨by norm_num, claim_C5 (fun _ => true) 739901 "KXMR" (by norm_num)⟩

/-- Counterexample for claim C6 as stated: a 304 Not Modified response
is not a success status, yet download_csv_bytes returns its bytes
instead of raising, because raise_for_status raises only for the
4xx and 5xx ranges. -/
theorem claim_C6_counterexample :
    ¬ (∀ (dlnet : DlNet) (url : String) (r : Response),
        dlnet.get url = DlOutcome.resp r →
        ¬(200 ≤ r.status_code ∧ r.status_code < 300) →
        ∃ e, download_csv_bytes dlnet url = Except.error e) := by
  intro hclaim
  obtain ⟨e, he⟩ := hclaim dlnet304 "u" { status_code := 304, content := [7] } rfl (by decide)
  rw [show download_csv_bytes dlnet304 "u" = Except.ok [7] from rfl] at he
  cases he

/-- Claim C6 (amended): download_csv_bytes returns the raw response
bytes when the status lies outside the 400 to 599 error ranges and
raises an explicit retrieval failure exactly for statuses in those
ranges (a transport exception also raises); and unlike search-phase
errors, which url_exists converts into false, a failure of this
terminal download step propagates through the click handler to the
user. -/
theorem claim_C6_amended (dlnet : DlNet) (url : String) :
    (∀ r, dlnet.get url = DlOutcome.resp r →
        download_csv_bytes dlnet url =
          if 400 ≤ r.status_code ∧ r.status_code < 600 then
            Except.error (DlError.httpStatus r.status_code)
          else Except.ok r.content)
    ∧ (dlnet.get url = DlOutcome.exn →
        download_csv_bytes dlnet url = Except.error DlError.transport)
    ∧ (∀ (net : Net) (today_utc : Nat) (station : String) (found : SearchResult)
        (e : DlError),
        find_latest_csv (url_exists net) today_utc station = some found →
        download_csv_bytes dlnet found.url = Except.error e →
        ui_on_click net dlnet today_utc station = Except.error e) := by
  refine ⟨?_, ?_, ?_⟩
  · intro r hr
    unfold download_csv_bytes raise_for_status
    rw [hr]
    by_cases hs : 400 ≤ r.status_code ∧ r.status_code < 600 <;> simp [hs]
  · intro hexn
    unfold download_csv_bytes
    rw [hexn]
  · intro net today_utc station found e hfind hdl
    unfold ui_on_click
    rw [hfind]
    dsimp only
    rw [hdl]

/-- Witness for claim C6: a 500 on the confirmed download propagates
out of the click handler as the retrieval failure. -/
theorem claim_C6_amended_witness :
    ui_on_click net200 dlnet500 739901 "KXMR" = Except.error (DlError.httpStatus 500) :=
  (claim_C6_amended dlnet500 "u").2.2 net200 739901 "KXMR"
    { url := "https://apps.gsl.noaa.gov/nbmviewer/data/archive/2026/10/12/NBM4.2/23/KXMR.csv",
      year := 2026, month := 10, day := 12, hour := 23, version := "NBM4.2" }
    (DlError.httpStatus 500) (by rfl) (by rfl)

/-- Claim C7: if the only existing URL in the space belongs to
yesterday (day offset 1) at hour 12 under version NBM4.1, the locator
returns exactly that triple, and the offered download file name is the
station, an underscore, yesterday rendered as 4-digit year and 2-digit
month and day, the hour 12, an underscore, the version tag and the
.csv suffix. -/
theorem claim_C7 (ex : String → Bool) (today_utc : Nat)
    (htrue : ex (keyURL "KXMR" (SearchKey.mk (today_utc - 1) 12 "NBM4.1")) = true)
    (hfalse : ∀ k ∈ searchKeys today_utc, k ≠ SearchKey.mk (today_utc - 1) 12 "NBM4.1" →
      ex (keyURL "KXMR" k) = false) :
    find_latest_csv ex today_utc "KXMR" =
      some (keyResult "KXMR" (SearchKey.mk (today_utc - 1) 12 "NBM4.1"))
    ∧ filename "KXMR" (keyResult "KXMR" (SearchKey.mk (today_utc - 1) 12 "NBM4.1")) =
        "KXMR_" ++ zpad 4 (ord2ymd (today_utc - 1)).1 ++
          zpad 2 (ord2ymd (today_utc - 1)).2.1 ++ zpad 2 (ord2ymd (today_utc - 1)).2.2 ++
          "12_NBM4.1.csv" := by
  have htmem : SearchKey.mk (today_utc - 1) 12 "NBM4.1" ∈ searchKeys today_utc := by
    unfold searchKeys
    rw [List.mem_flatMap]
    refine ⟨1, List.mem_range.mpr (by decide), ?_⟩
    rw [mem_dayBlock]
    exact ⟨rfl, mem_hoursDesc.mpr (by decide : (12 : Nat) < 24),
      (by decide : "NBM4.1" ∈ NBM_VERSIONS_TO_TRY)⟩
  constructor
  · rw [find_latest_csv_eq_find?, find?_eq_some_of_unique htmem hfalse htrue]
    rfl
  · unfold filename keyResult
    dsimp only
    rw [show zpad 2 12 = "12" from rfl]
    rw [show ("KXMR" : String) ++ "_" = "KXMR_" from rfl]
    rw [String.append_assoc, show ("NBM4.1" : String) ++ ".csv" = "NBM4.1.csv" from rfl]
    rw [String.append_assoc, show ("_" : String) ++ "NBM4.1.csv" = "_NBM4.1.csv" from rfl]
    rw [String.append_assoc, show ("12" : String) ++ "_NBM4.1.csv" = "12_NBM4.1.csv" from rfl]

set_option maxRecDepth 8000 in
/-- Witness for claim C7: a concrete server on which only yesterday's
hour-12 NBM4.1 URL exists, at the date ordinal 739901 (2026-10-12),
yielding the file name KXMR_2026101112_NBM4.1.csv. -/
theorem claim_C7_witness :
    ((fun u => u == keyURL "KXMR" (SearchKey.mk 739900 12 "NBM4.1"))
        (keyURL "KXMR" (SearchKey.mk (739901 - 1) 12 "NBM4.1")) = true)
    ∧ (∀ k ∈ searchKeys 739901, k ≠ SearchKey.mk (739901 - 1) 12 "NBM4.1" →
        (fun u => u == keyURL "KXMR" (SearchKey.mk 739900 12 "NBM4.1"))
          (keyURL "KXMR" k) = false)
    ∧ (find_latest_csv (fun u => u == keyURL "KXMR" (SearchKey.mk 739900 12 "NBM4.1"))
          739901 "KXMR" =
        some (keyResult "KXMR" (SearchKey.mk (739901 - 1) 12 "NBM4.1"))
      ∧ filename "KXMR" (keyResult "KXMR" (SearchKey.mk (739901 - 1) 12 "NBM4.1")) =
          "KXMR_" ++ zpad 4 (ord2ymd (739901 - 1)).1 ++ zpad 2 (ord2ymd (739901 - 1)).2.1 ++
            zpad 2 (ord2ymd (739901 - 1)).2.2 ++ "12_NBM4.1.csv") := by
  have hfalse : ∀ k ∈ searchKeys 739901, k ≠ SearchKey.mk (739901 - 1) 12 "NBM4.1" →
      (fun u => u == keyURL "KXMR" (SearchKey.mk 739900 12 "NBM4.1"))
        (keyURL "KXMR" k) = false := by
    decide
  exact ⟨by rfl, hfalse,
    claim_C7 (fun u => u == keyURL "KXMR" (SearchKey.mk 739900 12 "NBM4.1")) 739901
      (by rfl) hfalse⟩

/-- Claim C8: with the cache modelled as the specification describes,
a first search from an empty cache computes the same result as the
uncached search, and a second identical search started within the
time-to-live window returns that same result with zero underlying
network calls and an unchanged cache; likewise a repeated download of
a URL within the window performs zero further calls. -/
theorem claim_C8 (net : Net) (dlnet : DlNet) (today_utc : Nat) (station url : String)
    (t0 t1 : Nat) (hwin : t1 < t0 + CACHE_TTL) :
    (searchCachedList net t0 station (searchKeys today_utc) []).1 =
        find_latest_csv (url_exists net) today_utc station
    ∧ searchCachedList net t1 station (searchKeys today_utc)
          (searchCachedList net t0 station (searchKeys today_utc) []).2.1 =
        (find_latest_csv (url_exists net) today_utc station,
          (searchCachedList net t0 station (searchKeys today_utc) []).2.1, 0)
    ∧ cachedCall CACHE_TTL (download_csv_bytes dlnet) t1
          (cachedCall CACHE_TTL (download_csv_bytes dlnet) t0 [] url).2.1 url =
        ((cachedCall CACHE_TTL (download_csv_bytes dlnet) t0 [] url).1,
          (cachedCall CACHE_TTL (download_csv_bytes dlnet) t0 [] url).2.1, 0) := by
  have hfresh0 : FreshAt net t0 [] := by intro e he; cases he
  obtain ⟨r1, hf1, hmem1, hpres⟩ :=
    searchCached_fresh net t0 station (searchKeys today_utc) [] hfresh0
  have hs := searchCached_second net t0 t1 station hwin (searchKeys today_utc)
    (searchCachedList net t0 station (searchKeys today_utc) []).2.1 hf1 hpres
  refine ⟨?_, ?_, ?_⟩
  · rw [r1, ← find_latest_csv_eq_scan]
  · rw [hs, ← find_latest_csv_eq_scan]
  · have h1 : cachedCall CACHE_TTL (download_csv_bytes dlnet) t0 [] url =
        (download_csv_bytes dlnet url,
          [(url, download_csv_bytes dlnet url, t0 + CACHE_TTL)], 1) := rfl
    rw [h1]
    unfold cachedCall cacheLookup
    simp [List.find?, hwin]

/-- Witness for claim C8: two searches at times 0 and 100 against the
404-everywhere server, and a repeated download of one URL. -/
theorem claim_C8_witness :
    100 < 0 + CACHE_TTL
    ∧ ((searchCachedList net404 0 "KXMR" (searchKeys 739901) []).1 =
          find_latest_csv (url_exists net404) 739901 "KXMR"
      ∧ searchCachedList net404 100 "KXMR" (searchKeys 739901)
            (searchCachedList net404 0 "KXMR" (searchKeys 739901) []).2.1 =
          (find_latest_csv (url_exists net404) 739901 "KXMR",
            (searchCachedList net404 0 "KXMR" (searchKeys 739901) []).2.1, 0)
      ∧ cachedCall CACHE_TTL (download_csv_bytes dlnetOk) 100
            (cachedCall CACHE_TTL (download_csv_bytes dlnetOk) 0 [] "u").2.1 "u" =
          ((cachedCall CACHE_TTL (download_csv_bytes dlnetOk) 0 [] "u").1,
            (cachedCall CACHE_TTL (download_csv_bytes dlnetOk) 0 [] "u").2.1, 0)) :=
  ⟨by decide, claim_C8 net404 dlnetOk 739901 "KXMR" "u" 0 100 (by decide)⟩
